import Mathlib

/-!
Verification of the Convida Game of Life core (src/lib.rs).

This file gives a shallow embedding of the `Universe` data model and its
operations, translated from the Rust source, and proves the specification
claims about them.

Modelling conventions:
* `u32` dimensions and indices are modelled as `Nat` (no operation here can
  overflow a `u32` on a grid that fits in memory, and no claim concerns
  overflow).
* `Vec<Cell>` is a `List Cell`.  For the operations whose panic behaviour a
  claim is about (`toggle_cell`, `set_cells`) out-of-range indexing is
  modelled by `Option` (`none` = panic).  The remaining operations are
  modelled totally with `List.getD`/`List.set` (which default/no-op out of
  range); every claim about them carries the dimension invariant
  `cells.length = width * height`, under which all of their accesses are
  in range, so the total model coincides with the source there.
* `js_sys::Math::random() < 0.5` (one fresh comparison per generated cell)
  is modelled by an explicit boolean oracle stream `Nat → Bool`.
-/

namespace Convida

/-- Cell state of the grid (source: `enum Cell { Dead = 0, Alive = 1 }`). -/
inductive Cell : Type
  | Dead : Cell
  | Alive : Cell
deriving DecidableEq, Repr

/-- Numeric projection of a cell (source: `cell as u8`): Dead = 0, Alive = 1. -/
def Cell.val : Cell → Nat
  | Cell.Dead => 0
  | Cell.Alive => 1

/-- Source: `Cell::toggle`, flips Dead and Alive in place. -/
def Cell.toggle : Cell → Cell
  | Cell.Dead => Cell.Alive
  | Cell.Alive => Cell.Dead

/-- The universe (source: `struct Universe`): grid dimensions and the
row-major cell buffer. -/
@[ext]
structure Universe where
  width : Nat
  height : Nat
  cells : List Cell
deriving DecidableEq, Repr

/-- Source: `Universe::get_index`, the row-major flattened index
`(row * self.width + col) as usize`. -/
def Universe.get_index (u : Universe) (row col : Nat) : Nat :=
  row * u.width + col

/-- Source: `Universe::live_neighbor_count`.  Computes the four wrapped
axis neighbours and sums the cell values of the eight neighbour slots in
the source's order (nw, n, ne, w, e, sw, s, se). -/
def Universe.live_neighbor_count (u : Universe) (row col : Nat) : Nat :=
  let north := if row = 0 then u.height - 1 else row - 1
  let south := if row = u.height - 1 then 0 else row + 1
  let west := if col = 0 then u.width - 1 else col - 1
  let east := if col = u.width - 1 then 0 else col + 1
  (u.cells.getD (u.get_index north west) Cell.Dead).val
    + (u.cells.getD (u.get_index north col) Cell.Dead).val
    + (u.cells.getD (u.get_index north east) Cell.Dead).val
    + (u.cells.getD (u.get_index row west) Cell.Dead).val
    + (u.cells.getD (u.get_index row east) Cell.Dead).val
    + (u.cells.getD (u.get_index south west) Cell.Dead).val
    + (u.cells.getD (u.get_index south col) Cell.Dead).val
    + (u.cells.getD (u.get_index south east) Cell.Dead).val

/-- The per-cell transition rule: the `match (cell, live_neighbors)` in the
body of `Universe::tick`, with the arms in source order (underpopulation,
survival, overpopulation, reproduction, otherwise unchanged). -/
def nextCell (cell : Cell) (liveNeighbors : Nat) : Cell :=
  if cell = Cell.Alive ∧ liveNeighbors < 2 then Cell.Dead
  else if cell = Cell.Alive ∧ (liveNeighbors = 2 ∨ liveNeighbors = 3) then Cell.Alive
  else if cell = Cell.Alive ∧ 3 < liveNeighbors then Cell.Dead
  else if cell = Cell.Dead ∧ liveNeighbors = 3 then Cell.Alive
  else cell

/-- Source: `Universe::tick`.  A scratch buffer `next` starts as a clone of
`self.cells`; the double loop writes the new state of every cell into
`next`, reading only the pre-tick `self.cells`; finally `next` replaces
the grid. -/
def Universe.tick (u : Universe) : Universe :=
  { u with cells :=
      ((List.range u.height).foldl (fun next row =>
        (List.range u.width).foldl (fun next col =>
          next.set (u.get_index row col)
            (nextCell (u.cells.getD (u.get_index row col) Cell.Dead)
              (u.live_neighbor_count row col))) next) u.cells) }

/-- Source: seeding generator `default(size)`: cell at flattened index `i`
is Alive iff `i % 2 == 0 || i % 7 == 0`. -/
def default (size : Nat) : List Cell :=
  (List.range size).map (fun i =>
    if i % 2 = 0 ∨ i % 7 = 0 then Cell.Alive else Cell.Dead)

/-- Source: seeding generator `glider(size, width)`: an all-Dead buffer
with a single glider stamped at the origin by plain row-major indexing
(no modulo). -/
def glider (size width : Nat) : List Cell :=
  let cells := (List.range size).map (fun _ => Cell.Dead)
  let cells := cells.set (1 + width * 0) Cell.Alive
  let cells := cells.set (2 + width * 1) Cell.Alive
  (List.range 3).foldl (fun cs i => cs.set (i + width * 2) Cell.Alive) cells

/-- Source: seeding generator `random(size)`: each cell is Alive iff the
next draw of `Math.random()` is below 0.5; the stream of comparison
outcomes is the oracle. -/
def random (size : Nat) (oracle : Nat → Bool) : List Cell :=
  (List.range size).map (fun i => if oracle i then Cell.Alive else Cell.Dead)

/-- Source: `create_cells(cell_type, size, width)`: dispatches on the
generator name; an unknown name panics ("Unknown cell type."), modelled
as `none`. -/
def create_cells (cell_type : String) (size width : Nat) (oracle : Nat → Bool) :
    Option (List Cell) :=
  match cell_type with
  | "default" => some (Convida.default size)
  | "glider" => some (Convida.glider size width)
  | "random" => some (Convida.random size oracle)
  | _ => none

/-- Source: `Universe::set_width`: assigns the width and reallocates the
buffer as `(0..width * self.height).map(|_| Cell::Dead)`. -/
def Universe.set_width (u : Universe) (width : Nat) : Universe :=
  { u with width := width,
           cells := (List.range (width * u.height)).map (fun _ => Cell.Dead) }

/-- Source: `Universe::set_height`: assigns the height and reallocates the
buffer as `(0..self.width * height).map(|_| Cell::Dead)`. -/
def Universe.set_height (u : Universe) (height : Nat) : Universe :=
  { u with height := height,
           cells := (List.range (u.width * height)).map (fun _ => Cell.Dead) }

/-- Source: `Universe::set_size(width, height)`: assigns the receiver's
`width` and `height` (leaving its `cells` untouched) and returns a brand
new universe of the given size with fresh `create_cells("random", ...)`
content.  The first component is the mutated receiver, the second the
returned universe.  `create_cells "random"` always succeeds, so its
result is unwrapped with an empty-list default that is never used. -/
def Universe.set_size (u : Universe) (width height : Nat) (oracle : Nat → Bool) :
    Universe × Universe :=
  ({ u with width := width, height := height },
   { width := width, height := height,
     cells := (create_cells "random" (width * height) width oracle).getD [] })

/-- Source: `Universe::reset`: reseeds the buffer with
`create_cells("random", size, width)` at the current dimensions. -/
def Universe.reset (u : Universe) (oracle : Nat → Bool) : Universe :=
  { u with cells :=
      (create_cells "random" (u.width * u.height) u.width oracle).getD [] }

/-- Source: `Universe::clear`: the buffer becomes
`(0..self.width * self.height).map(|_| Cell::Dead)`. -/
def Universe.clear (u : Universe) : Universe :=
  { u with cells := (List.range (u.width * u.height)).map (fun _ => Cell.Dead) }

/-- Source: `Universe::toggle_cell(row, col)`: toggles
`self.cells[get_index(row, col)]` in place.  The `Vec` indexing panics
when the flattened index is out of range, modelled as `none`. -/
def Universe.toggle_cell (u : Universe) (row col : Nat) : Option Universe :=
  let idx := u.get_index row col
  if idx < u.cells.length then
    some { u with cells := u.cells.set idx (u.cells.getD idx Cell.Dead).toggle }
  else none

/-- Source: `Universe::set_cells(cells)`: marks each listed `(row, col)`
Alive via `get_index`; out-of-range `Vec` indexing panics, modelled as
`none`. -/
def Universe.set_cells (u : Universe) (pairs : List (Nat × Nat)) : Option Universe :=
  pairs.foldlM (fun v p =>
    if v.get_index p.1 p.2 < v.cells.length then
      some { v with cells := v.cells.set (v.get_index p.1 p.2) Cell.Alive }
    else none) u

/-- Source: `Universe::glider(row, col)`: stamps the 5-cell glider shape by
modulo on the flattened index over the whole buffer
(`limit = width * height`). -/
def Universe.glider (u : Universe) (row col : Nat) : Universe :=
  let limit := u.width * u.height
  let cells := u.cells.set ((1 + col + u.width * (0 + row)) % limit) Cell.Alive
  let cells := cells.set ((2 + col + u.width * (1 + row)) % limit) Cell.Alive
  { u with cells :=
      ((List.range 3).foldl
        (fun cs i => cs.set ((i + col + u.width * (2 + row)) % limit) Cell.Alive) cells) }

/-- Source: `Universe::cells_from_pattern(arr, min, max, row_translate,
col_translate, limit)`: for `i` in `min..max`, when `arr` contains
`i - min` the cell at `(i + row_translate + col_translate) % limit` is
set Alive.  (`min`/`max` are renamed `mn`/`mx` to avoid shadowing.) -/
def Universe.cells_from_pattern (u : Universe) (arr : List Nat)
    (mn mx row_translate col_translate limit : Nat) : Universe :=
  { u with cells :=
      ((List.range' mn (mx - mn)).foldl (fun cs i =>
        if (i - mn) ∈ arr then
          cs.set ((i + row_translate + col_translate) % limit) Cell.Alive
        else cs) u.cells) }

/-- Body of the `while idx < pulsar_height` loop of `Universe::pulsar`:
stamps pattern row `idx` through `cells_from_pattern`, selecting the
`top` = [2,3,4,8,9,10], empty, or `side` = [0,5,7,12] offset array by the
source's `match idx`.  The `_ => panic!("Invalid row number.")` arm is
unreachable (the loop keeps `idx < 13`); it is modelled as the identity. -/
def pulsarStep (row col limit : Nat) (v : Universe) (idx : Nat) : Universe :=
  let pulsar_width : Nat := 13
  let start := idx * pulsar_width
  let stop := start + pulsar_width
  let row_translate := row * v.width
  let col_translate := col + (idx * (v.width - pulsar_width))
  match idx with
  | 0 | 5 | 7 | 12 =>
      v.cells_from_pattern [2, 3, 4, 8, 9, 10] start stop row_translate col_translate limit
  | 1 | 6 | 11 =>
      v.cells_from_pattern [] start stop row_translate col_translate limit
  | 2 | 3 | 4 | 8 | 9 | 10 =>
      v.cells_from_pattern [0, 5, 7, 12] start stop row_translate col_translate limit
  | _ => v

/-- Source: `Universe::pulsar(row, col)`: iterates the 13 pattern rows
(`while idx < pulsar_height`), stamping each through `pulsarStep`. -/
def Universe.pulsar (u : Universe) (row col : Nat) : Universe :=
  let pulsar_height : Nat := 13
  let limit := u.width * u.height
  (List.range pulsar_height).foldl (pulsarStep row col limit) u

/-! ### Proof-side definitions -/

/-- A sequence of keyed writes, the shape of every mutation loop in the source. -/
def writeFold (ps : List (Nat × Cell)) (cs : List Cell) : List Cell :=
  ps.foldl (fun cs p => cs.set p.1 p.2) cs

/-- A sequence of writes that all write `Alive`, the shape of the pattern
stampers.  Order is irrelevant for these. -/
def setAlive (ks : List Nat) (cs : List Cell) : List Cell :=
  ks.foldl (fun cs k => cs.set k Cell.Alive) cs

/-- The keyed writes performed by the double loop of `tick`, in loop order. -/
def tickWrites (u : Universe) : List (Nat × Cell) :=
  (List.range u.height).flatMap (fun row =>
    (List.range u.width).map (fun col =>
      (u.get_index row col,
       nextCell (u.cells.getD (u.get_index row col) Cell.Dead)
         (u.live_neighbor_count row col))))

/-- The five flattened indices written by `Universe.glider`, in write
order and in the source's index expressions. -/
def gliderKeys (u : Universe) (row col : Nat) : List Nat :=
  [(1 + col + u.width * (0 + row)) % (u.width * u.height),
   (2 + col + u.width * (1 + row)) % (u.width * u.height),
   (0 + col + u.width * (2 + row)) % (u.width * u.height),
   (1 + col + u.width * (2 + row)) % (u.width * u.height),
   (2 + col + u.width * (2 + row)) % (u.width * u.height)]

/-- The literal 13×13 pulsar diagram of the spec, one list of Alive column
offsets per relative row (rows 0–12). -/
def pulsarDiagram : List (List Nat) :=
  [[2, 3, 4, 8, 9, 10],
   [],
   [0, 5, 7, 12],
   [0, 5, 7, 12],
   [0, 5, 7, 12],
   [2, 3, 4, 8, 9, 10],
   [],
   [2, 3, 4, 8, 9, 10],
   [0, 5, 7, 12],
   [0, 5, 7, 12],
   [0, 5, 7, 12],
   [],
   [2, 3, 4, 8, 9, 10]]

/-- Alive column offsets used by pattern row `idx` of the pulsar stamper:
the `top`/`[]`/`side` arrays selected by the source's `match idx`. -/
def pulsarRowOffsets : Nat → List Nat
  | 0 | 5 | 7 | 12 => [2, 3, 4, 8, 9, 10]
  | 1 | 6 | 11 => []
  | 2 | 3 | 4 | 8 | 9 | 10 => [0, 5, 7, 12]
  | _ => []

/-- Flattened keys written by pattern row `idx` of `pulsar 0 0`. -/
def pulsar00Keys (u : Universe) (idx : Nat) : List Nat :=
  ((List.range' (idx * 13) 13).filter
      (fun i => decide ((i - idx * 13) ∈ pulsarRowOffsets idx))).map
    (fun i => (i + 0 * u.width + (0 + idx * (u.width - 13))) % (u.width * u.height))

/-- Concrete 3×3 all-Dead universe, used to instantiate theorems. -/
def u33 : Universe :=
  { width := 3, height := 3, cells := List.replicate 9 Cell.Dead }

/-- Concrete 2×2 all-Dead universe, used to instantiate theorems. -/
def u22 : Universe :=
  { width := 2, height := 2, cells := List.replicate 4 Cell.Dead }

/-- Concrete 13×13 all-Dead universe, used to instantiate theorems. -/
def u1313 : Universe :=
  { width := 13, height := 13, cells := List.replicate 169 Cell.Dead }

/-- Concrete 3×3 universe whose only live cell is the corner (2,2), used to
instantiate theorems. -/
def uCorner : Universe :=
  { width := 3, height := 3,
    cells := (List.range 9).map (fun k => if k = 8 then Cell.Alive else Cell.Dead) }

/-- Concrete 5×5 universe holding a horizontal blinker centred at (2,2),
used to instantiate theorems. -/
def uBlinker : Universe :=
  { width := 5, height := 5,
    cells := (List.range 25).map (fun k =>
      if k = 11 ∨ k = 12 ∨ k = 13 then Cell.Alive else Cell.Dead) }

/-! ### Generic lemmas about buffers built by sequences of `List.set` writes -/

/-- Value of a buffer after a single `set`, with the out-of-range no-op case. -/
theorem getD_set (cs : List Cell) (i k : Nat) (a d : Cell) :
    (cs.set i a).getD k d = if i = k ∧ k < cs.length then a else cs.getD k d := by
  induction cs generalizing i k with
  | nil => simp
  | cons x xs ih =>
    cases i with
    | zero =>
      cases k with
      | zero => simp
      | succ k => simp
    | succ i =>
      cases k with
      | zero => simp
      | succ k =>
        simp only [List.set_cons_succ, List.getD_cons_succ, List.length_cons]
        rw [ih i k]
        by_cases hik : i = k <;> simp [hik, Nat.succ_lt_succ_iff]

theorem writeFold_cons (p : Nat × Cell) (ps : List (Nat × Cell)) (cs : List Cell) :
    writeFold (p :: ps) cs = writeFold ps (cs.set p.1 p.2) := rfl

theorem writeFold_append (ps qs : List (Nat × Cell)) (cs : List Cell) :
    writeFold (ps ++ qs) cs = writeFold qs (writeFold ps cs) :=
  List.foldl_append _ _ _ _

theorem length_writeFold (ps : List (Nat × Cell)) (cs : List Cell) :
    (writeFold ps cs).length = cs.length := by
  induction ps generalizing cs with
  | nil => rfl
  | cons p ps ih => rw [writeFold_cons, ih, List.length_set]

theorem getD_writeFold_not_mem (ps : List (Nat × Cell)) (cs : List Cell) (k : Nat) (d : Cell)
    (h : ∀ p ∈ ps, p.1 ≠ k) :
    (writeFold ps cs).getD k d = cs.getD k d := by
  induction ps generalizing cs with
  | nil => rfl
  | cons p ps ih =>
    rw [writeFold_cons, ih _ (fun q hq => h q (List.mem_cons_of_mem _ hq)), getD_set]
    have hp : p.1 ≠ k := h p (List.mem_cons_self _ _)
    simp [hp]

/-- When the keys written are pairwise distinct, the final value at a written
key is the value paired with it. -/
theorem getD_writeFold_nodup (ps : List (Nat × Cell)) (cs : List Cell) (k : Nat) (v d : Cell)
    (hnd : (ps.map Prod.fst).Nodup) (hmem : (k, v) ∈ ps) (hk : k < cs.length) :
    (writeFold ps cs).getD k d = v := by
  induction ps generalizing cs with
  | nil => cases hmem
  | cons p ps ih =>
    rw [writeFold_cons]
    rcases List.mem_cons.mp hmem with heq | hmem'
    · subst heq
      have h1 : k ∉ ps.map Prod.fst := by
        have h2 := hnd
        simp only [List.map_cons] at h2
        exact (List.nodup_cons.mp h2).1
      have hnotin : ∀ q ∈ ps, q.1 ≠ k := by
        intro q hq hqk
        exact h1 (hqk ▸ List.mem_map_of_mem Prod.fst hq)
      rw [getD_writeFold_not_mem _ _ _ _ hnotin, getD_set]
      simp [hk]
    · exact ih _ (List.nodup_cons.mp hnd).2 hmem' (by rw [List.length_set]; exact hk)

theorem setAlive_cons (k : Nat) (ks : List Nat) (cs : List Cell) :
    setAlive (k :: ks) cs = setAlive ks (cs.set k Cell.Alive) := rfl

theorem setAlive_append (ks ls : List Nat) (cs : List Cell) :
    setAlive (ks ++ ls) cs = setAlive ls (setAlive ks cs) :=
  List.foldl_append _ _ _ _

theorem length_setAlive (ks : List Nat) (cs : List Cell) :
    (setAlive ks cs).length = cs.length := by
  induction ks generalizing cs with
  | nil => rfl
  | cons k ks ih => rw [setAlive_cons, ih, List.length_set]

theorem getD_setAlive (ks : List Nat) (cs : List Cell) (k : Nat) (d : Cell) :
    (setAlive ks cs).getD k d =
      if k ∈ ks ∧ k < cs.length then Cell.Alive else cs.getD k d := by
  induction ks generalizing cs with
  | nil => simp [setAlive]
  | cons k0 ks ih =>
    rw [setAlive_cons, ih, List.length_set, getD_set]
    by_cases hk0 : k0 = k
    · subst hk0
      by_cases hmem : k0 ∈ ks <;> by_cases hlt : k0 < cs.length <;>
        simp [hmem, hlt, List.mem_cons]
    · by_cases hmem : k ∈ ks <;> by_cases hlt : k < cs.length <;>
        simp [hmem, hlt, hk0, Ne.symm hk0, List.mem_cons]

/-- A conditional stamping loop is a plain `setAlive` over the filtered,
mapped key list. -/
theorem foldl_ite_set (l : List Nat) (q : Nat → Prop) [DecidablePred q]
    (f : Nat → Nat) (cs : List Cell) :
    l.foldl (fun cs i => if q i then cs.set (f i) Cell.Alive else cs) cs
      = setAlive ((l.filter (fun i => decide (q i))).map f) cs := by
  induction l generalizing cs with
  | nil => rfl
  | cons i l ih =>
    by_cases hi : q i
    · rw [List.foldl_cons, if_pos hi, List.filter_cons_of_pos (by simp [hi]),
        List.map_cons, setAlive_cons]
      exact ih _
    · rw [List.foldl_cons, if_neg hi, List.filter_cons_of_neg (by simp [hi])]
      exact ih _

/-! ### Flattened row-major index arithmetic -/

theorem flat_lt {w h r c : Nat} (hr : r < h) (hc : c < w) : r * w + c < w * h := by
  calc r * w + c < r * w + w := by omega
    _ = (r + 1) * w := by ring
    _ ≤ h * w := Nat.mul_le_mul_right _ hr
    _ = w * h := Nat.mul_comm _ _

theorem flat_eq_iff {w r c r' c' : Nat} (hc : c < w) (hc' : c' < w) :
    r * w + c = r' * w + c' ↔ r = r' ∧ c = c' := by
  constructor
  · intro h
    have hw : 0 < w := Nat.lt_of_le_of_lt (Nat.zero_le c) hc
    have h1 : (c + r * w) % w = (c' + r' * w) % w := by
      rw [Nat.add_comm c (r * w), Nat.add_comm c' (r' * w)]
      exact congrArg (· % w) h
    rw [Nat.add_mul_mod_self_right, Nat.add_mul_mod_self_right,
      Nat.mod_eq_of_lt hc, Nat.mod_eq_of_lt hc'] at h1
    subst h1
    have h2 : r * w = r' * w := by omega
    exact ⟨Nat.eq_of_mul_eq_mul_right hw h2, rfl⟩
  · rintro ⟨rfl, rfl⟩
    rfl

/-! ### Characterisation of `tick` as a write sequence with distinct keys -/

theorem foldl_flatMap {α β γ : Type} (l : List α) (g : α → List β) (f : γ → β → γ)
    (init : γ) :
    (l.flatMap g).foldl f init = l.foldl (fun acc a => (g a).foldl f acc) init := by
  induction l generalizing init with
  | nil => rfl
  | cons a l ih => rw [List.flatMap_cons, List.foldl_append, List.foldl_cons, ih]

theorem tick_cells_eq (u : Universe) :
    (u.tick).cells = writeFold (tickWrites u) u.cells := by
  show (List.range u.height).foldl _ u.cells = _
  rw [writeFold, tickWrites, foldl_flatMap]
  simp only [List.foldl_map]

theorem tick_width (u : Universe) : (u.tick).width = u.width := rfl

theorem tick_height (u : Universe) : (u.tick).height = u.height := rfl

theorem length_tick (u : Universe) : (u.tick).cells.length = u.cells.length := by
  rw [tick_cells_eq, length_writeFold]

theorem tickWrites_keys_nodup (u : Universe) : ((tickWrites u).map Prod.fst).Nodup := by
  rw [tickWrites, List.map_flatMap]
  simp only [List.map_map]
  rw [List.nodup_flatMap]
  constructor
  · intro row _
    refine List.Nodup.map ?_ (List.nodup_range _)
    intro c c' h
    simpa [Universe.get_index] using h
  · have h1 : List.Pairwise (· ≠ ·) (List.range u.height) :=
      (List.nodup_range _)
    refine h1.imp ?_
    intro r r' hne
    intro a ha ha'
    simp only [Function.comp, List.mem_map, List.mem_range] at ha ha'
    obtain ⟨c, hc, rfl⟩ := ha
    obtain ⟨c', hc', heq⟩ := ha'
    simp only [Universe.get_index] at heq
    exact hne ((flat_eq_iff hc hc').mp heq.symm).1

theorem tick_getD (u : Universe) (hlen : u.cells.length = u.width * u.height)
    {row col : Nat} (hr : row < u.height) (hc : col < u.width) :
    (u.tick).cells.getD (row * u.width + col) Cell.Dead =
      nextCell (u.cells.getD (row * u.width + col) Cell.Dead)
        (u.live_neighbor_count row col) := by
  rw [tick_cells_eq]
  refine getD_writeFold_nodup _ _ _ _ _ (tickWrites_keys_nodup u) ?_ ?_
  · exact List.mem_flatMap.mpr
      ⟨row, List.mem_range.mpr hr,
       List.mem_map.mpr ⟨col, List.mem_range.mpr hc, rfl⟩⟩
  · rw [hlen]
    exact flat_lt hr hc

theorem tick_of_zero (u : Universe) (h0 : u.width = 0 ∨ u.height = 0) : u.tick = u := by
  have hw : tickWrites u = [] := by
    rcases h0 with h0 | h0 <;> simp [tickWrites, h0]
  refine Universe.ext rfl rfl ?_
  rw [tick_cells_eq, hw]
  rfl

/-- Value of a buffer produced by mapping over `List.range`. -/
theorem getD_map_range (n i : Nat) (f : Nat → Cell) (d : Cell) :
    ((List.range n).map f).getD i d = if i < n then f i else d := by
  by_cases h : i < n
  · rw [if_pos h, List.getD_eq_getElem _ _ (by simpa using h)]
    simp
  · rw [if_neg h, List.getD_eq_default _ _ (by simpa using Nat.le_of_not_lt h)]

/-! ### Claim theorems -/

/-- C1: for every universe whose cells buffer has length `width * height`,
`tick` keeps the dimensions and buffer length, and replaces the grid with
the next generation computed simultaneously from the pre-tick one: the new
cell at `(row, col)` is `nextCell` (the source's rule table: Alive with
fewer than 2 live neighbours dies, Alive with 2 or 3 survives, Alive with
more than 3 dies, Dead with exactly 3 becomes Alive, everything else is
unchanged) of the old cell and of `live_neighbor_count` evaluated on the
pre-tick cells only. -/
theorem claim1_tick_next_generation (u : Universe)
    (hlen : u.cells.length = u.width * u.height) :
    (u.tick).width = u.width ∧ (u.tick).height = u.height ∧
    (u.tick).cells.length = u.width * u.height ∧
    ∀ row col, row < u.height → col < u.width →
      (u.tick).cells.getD (row * u.width + col) Cell.Dead =
        nextCell (u.cells.getD (row * u.width + col) Cell.Dead)
          (u.live_neighbor_count row col) := by
  refine ⟨rfl, rfl, by rw [length_tick, hlen], ?_⟩
  intro row col hr hc
  exact tick_getD u hlen hr hc

/-- Witness for C1 at the concrete 5×5 blinker universe, cell (2,2). -/
theorem claim1_tick_next_generation_witness :
    (uBlinker.tick).cells.getD (2 * 5 + 2) Cell.Dead =
      nextCell (uBlinker.cells.getD (2 * 5 + 2) Cell.Dead)
        (uBlinker.live_neighbor_count 2 2) :=
  (claim1_tick_next_generation uBlinker (by decide)).2.2.2 2 2 (by decide) (by decide)

/-- C8: the "default" seeding generator deterministically produces, for any
size, a buffer of that size whose cell at flattened index `i` is Alive iff
`i % 2 = 0` or `i % 7 = 0`, and Dead otherwise; `create_cells` dispatches
"default" to it. -/
theorem claim8_default_generator (size wdt : Nat) (oracle : Nat → Bool) :
    (Convida.default size).length = size ∧
    create_cells "default" size wdt oracle = some (Convida.default size) ∧
    ∀ i, i < size →
      (Convida.default size).getD i Cell.Dead =
        if i % 2 = 0 ∨ i % 7 = 0 then Cell.Alive else Cell.Dead := by
  refine ⟨by simp [Convida.default], rfl, ?_⟩
  intro i hi
  rw [Convida.default, getD_map_range, if_pos hi]

/-- Witness for C8 at size 14: index 7 is Alive (7 % 7 = 0), via the claim
theorem. -/
theorem claim8_default_generator_witness :
    (Convida.default 14).getD 7 Cell.Dead =
      if 7 % 2 = 0 ∨ 7 % 7 = 0 then Cell.Alive else Cell.Dead :=
  (claim8_default_generator 14 14 (fun _ => false)).2.2 7 (by decide)

/-- C9: on a universe with `width = 0` or `height = 0`, `tick` terminates
normally and is the identity: the loop visits no cell at all (its write
list is empty), so width, height and cells are left exactly unchanged and
no neighbour lookup (with its `height - 1` / `width - 1` underflow hazard)
is ever evaluated. -/
theorem claim9_tick_zero_sized (u : Universe) (h0 : u.width = 0 ∨ u.height = 0) :
    u.tick = u ∧ tickWrites u = [] := by
  have hw : tickWrites u = [] := by
    rcases h0 with h0 | h0 <;> simp [tickWrites, h0]
  exact ⟨tick_of_zero u h0, hw⟩

/-- Witness for C9 at the concrete universe with width 0 and height 3. -/
theorem claim9_tick_zero_sized_witness :
    Universe.tick { width := 0, height := 3, cells := [] } =
        { width := 0, height := 3, cells := [] } ∧
      tickWrites { width := 0, height := 3, cells := [] } = [] :=
  claim9_tick_zero_sized { width := 0, height := 3, cells := [] } (Or.inl rfl)

/-! ### `toggle_cell` and `set_cells` lemmas -/

theorem toggle_toggle (c : Cell) : c.toggle.toggle = c := by
  cases c <;> rfl

theorem toggle_cell_eq_some (u : Universe) (row col : Nat)
    (h : u.get_index row col < u.cells.length) :
    u.toggle_cell row col = some { u with cells := (u.cells.set (u.get_index row col)
      ((u.cells.getD (u.get_index row col) Cell.Dead).toggle)) } := by
  simp only [Universe.toggle_cell]
  rw [if_pos h]

theorem toggle_cell_eq_none (u : Universe) (row col : Nat)
    (h : ¬ u.get_index row col < u.cells.length) :
    u.toggle_cell row col = none := by
  simp only [Universe.toggle_cell]
  rw [if_neg h]

theorem set_getD_self (cs : List Cell) (i : Nat) (d : Cell) (h : i < cs.length) :
    cs.set i (cs.getD i d) = cs := by
  refine List.ext_getElem (by simp) ?_
  intro n h1 h2
  by_cases hin : i = n
  · subst hin
    rw [List.getElem_set, if_pos rfl, List.getD_eq_getElem _ _ h]
  · rw [List.getElem_set, if_neg hin]

/-- C10: for every well-formed universe and in-range coordinate, a single
`toggle_cell` succeeds, keeps the dimensions and buffer length, toggles
exactly the one addressed cell and no other, and a second identical call
restores the universe exactly. -/
theorem claim10_toggle_cell_involution (u : Universe) (row col : Nat)
    (hlen : u.cells.length = u.width * u.height)
    (hr : row < u.height) (hc : col < u.width) :
    ∃ u1, u.toggle_cell row col = some u1 ∧
      u1.width = u.width ∧ u1.height = u.height ∧
      u1.cells.length = u.cells.length ∧
      u1.cells.getD (row * u.width + col) Cell.Dead
        = (u.cells.getD (row * u.width + col) Cell.Dead).toggle ∧
      (∀ k, k ≠ row * u.width + col →
        u1.cells.getD k Cell.Dead = u.cells.getD k Cell.Dead) ∧
      u1.toggle_cell row col = some u := by
  have hidx : u.get_index row col < u.cells.length := by
    show row * u.width + col < u.cells.length
    rw [hlen]
    exact flat_lt hr hc
  refine ⟨_, toggle_cell_eq_some u row col hidx, rfl, rfl, List.length_set _ _ _, ?_, ?_, ?_⟩
  · rw [getD_set]
    exact if_pos ⟨rfl, hidx⟩
  · intro k hk
    rw [getD_set, if_neg]
    intro hcontra
    exact hk hcontra.1.symm
  · rw [toggle_cell_eq_some _ row col (by rw [List.length_set]; exact hidx)]
    congr 1
    refine Universe.ext rfl rfl ?_
    show ((u.cells.set (u.get_index row col)
      ((u.cells.getD (u.get_index row col) Cell.Dead).toggle)).set (u.get_index row col)
      (((u.cells.set (u.get_index row col)
        ((u.cells.getD (u.get_index row col) Cell.Dead).toggle)).getD
          (u.get_index row col) Cell.Dead).toggle)) = u.cells
    have hget : (u.cells.set (u.get_index row col)
        ((u.cells.getD (u.get_index row col) Cell.Dead).toggle)).getD
          (u.get_index row col) Cell.Dead
        = (u.cells.getD (u.get_index row col) Cell.Dead).toggle := by
      rw [getD_set]
      exact if_pos ⟨rfl, hidx⟩
    rw [hget, toggle_toggle, List.set_set, set_getD_self _ _ _ hidx]

theorem set_cells_singleton (u : Universe) (row col : Nat) :
    u.set_cells [(row, col)] =
      if u.get_index row col < u.cells.length then
        some { u with cells := (u.cells.set (u.get_index row col) Cell.Alive) }
      else none := by
  by_cases h : u.get_index row col < u.cells.length
  · rw [if_pos h]
    simp [Universe.set_cells, h]
  · rw [if_neg h]
    simp [Universe.set_cells, h]

/-- C6 counterexample: on the 3×3 all-Dead universe, `toggle_cell 0 5` has
`col = 5 ≥ width = 3`, yet it does not fail: it succeeds and silently
toggles the in-range cell at flattened index 5 (row 1, column 2), because
`get_index` bounds-checks only the flattened index. -/
theorem claim6_counterexample :
    (3 : Nat) ≤ 5 ∧
    u33.toggle_cell 0 5 =
      some { width := 3, height := 3,
             cells := ((List.replicate 9 Cell.Dead).set 5 Cell.Alive) } := by
  constructor
  · decide
  · decide

/-- C6 amended: `toggle_cell` (and `set_cells` on a singleton) fails iff the
flattened index `row*width + col` falls outside the cells buffer; a
coordinate with `row ≥ height` always fails, but a coordinate with
`col ≥ width` whose flattened index is still in range is silently remapped
onto the in-range cell at that flattened index rather than failing. -/
theorem claim6_amended (u : Universe) (row col : Nat)
    (hlen : u.cells.length = u.width * u.height) :
    (u.toggle_cell row col = none ↔ u.width * u.height ≤ row * u.width + col) ∧
    (u.set_cells [(row, col)] = none ↔ u.width * u.height ≤ row * u.width + col) ∧
    (u.height ≤ row →
      u.toggle_cell row col = none ∧ u.set_cells [(row, col)] = none) := by
  have hidx : u.get_index row col = row * u.width + col := rfl
  have key : (¬ u.get_index row col < u.cells.length) ↔
      u.width * u.height ≤ row * u.width + col := by
    rw [hidx, hlen]
    omega
  have t1 : u.toggle_cell row col = none ↔ ¬ u.get_index row col < u.cells.length := by
    by_cases h : u.get_index row col < u.cells.length
    · rw [toggle_cell_eq_some u row col h]
      simp [h]
    · rw [toggle_cell_eq_none u row col h]
      simp [h]
  have t2 : u.set_cells [(row, col)] = none ↔
      ¬ u.get_index row col < u.cells.length := by
    rw [set_cells_singleton]
    by_cases h : u.get_index row col < u.cells.length <;> simp [h]
  refine ⟨t1.trans key, t2.trans key, ?_⟩
  intro hrow
  have h2 : u.cells.length ≤ row * u.width + col := by
    calc u.cells.length = u.width * u.height := hlen
      _ = u.height * u.width := Nat.mul_comm _ _
      _ ≤ row * u.width := Nat.mul_le_mul_right _ hrow
      _ ≤ row * u.width + col := Nat.le_add_right _ _
  have h3 : ¬ u.get_index row col < u.cells.length := by
    rw [hidx]
    omega
  exact ⟨t1.mpr h3, t2.mpr h3⟩

/-- Witness for the amended C6 at the 3×3 all-Dead universe, coordinate
(5, 0). -/
theorem claim6_amended_witness :
    (u33.toggle_cell 5 0 = none ↔ u33.width * u33.height ≤ 5 * u33.width + 0) ∧
    (u33.set_cells [(5, 0)] = none ↔ u33.width * u33.height ≤ 5 * u33.width + 0) ∧
    (u33.height ≤ 5 →
      u33.toggle_cell 5 0 = none ∧ u33.set_cells [(5, 0)] = none) :=
  claim6_amended u33 5 0 (by decide)

/-! ### `glider` stamping -/

theorem glider_cells_eq (u : Universe) (row col : Nat) :
    (u.glider row col).cells = setAlive (gliderKeys u row col) u.cells := by
  simp only [Universe.glider]
  rw [show List.range 3 = [0, 1, 2] from rfl]
  rfl

theorem glider_width (u : Universe) (row col : Nat) :
    (u.glider row col).width = u.width := rfl

theorem glider_height (u : Universe) (row col : Nat) :
    (u.glider row col).height = u.height := rfl

theorem length_glider (u : Universe) (row col : Nat) :
    (u.glider row col).cells.length = u.cells.length := by
  rw [glider_cells_eq, length_setAlive]

/-- C4: with a non-empty well-formed grid, `glider row col` keeps the
dimensions and buffer length, sets to Alive exactly the cells at the five
flattened indices `(1+col+width*row) % (width*height)`,
`(2+col+width*(row+1)) % (width*height)` and
`(i+col+width*(row+2)) % (width*height)` for `i` in {0,1,2} — modulo on
the flattened index over the whole buffer, not per-axis wraparound — and
leaves every other cell unchanged. -/
theorem claim4_glider_stamp (u : Universe) (row col : Nat)
    (hlen : u.cells.length = u.width * u.height) (_hpos : 0 < u.width * u.height) :
    (u.glider row col).width = u.width ∧ (u.glider row col).height = u.height ∧
    (u.glider row col).cells.length = u.width * u.height ∧
    ∀ k, k < u.width * u.height →
      (u.glider row col).cells.getD k Cell.Dead =
        if k = (1 + col + u.width * row) % (u.width * u.height)
            ∨ k = (2 + col + u.width * (row + 1)) % (u.width * u.height)
            ∨ k = (0 + col + u.width * (row + 2)) % (u.width * u.height)
            ∨ k = (1 + col + u.width * (row + 2)) % (u.width * u.height)
            ∨ k = (2 + col + u.width * (row + 2)) % (u.width * u.height)
        then Cell.Alive else u.cells.getD k Cell.Dead := by
  have e1 : 1 + col + u.width * (0 + row) = 1 + col + u.width * row := by ring
  have e2 : 2 + col + u.width * (1 + row) = 2 + col + u.width * (row + 1) := by ring
  have e3 : 0 + col + u.width * (2 + row) = 0 + col + u.width * (row + 2) := by ring
  have e4 : 1 + col + u.width * (2 + row) = 1 + col + u.width * (row + 2) := by ring
  have e5 : 2 + col + u.width * (2 + row) = 2 + col + u.width * (row + 2) := by ring
  refine ⟨rfl, rfl, by rw [length_glider, hlen], ?_⟩
  intro k hk
  rw [glider_cells_eq, getD_setAlive]
  simp only [gliderKeys, e1, e2, e3, e4, e5, List.mem_cons, List.not_mem_nil, or_false]
  by_cases hd : k = (1 + col + u.width * row) % (u.width * u.height)
      ∨ k = (2 + col + u.width * (row + 1)) % (u.width * u.height)
      ∨ k = (0 + col + u.width * (row + 2)) % (u.width * u.height)
      ∨ k = (1 + col + u.width * (row + 2)) % (u.width * u.height)
      ∨ k = (2 + col + u.width * (row + 2)) % (u.width * u.height)
  · rw [if_pos ⟨hd, by rw [hlen]; exact hk⟩, if_pos hd]
  · rw [if_neg (fun hcon => hd hcon.1), if_neg hd]

/-- Witness for C4 at the 3×3 all-Dead universe, anchor (0,0), index 1. -/
theorem claim4_glider_stamp_witness :
    (u33.glider 0 0).cells.getD 1 Cell.Dead =
      if (1 : Nat) = (1 + 0 + u33.width * 0) % (u33.width * u33.height)
          ∨ (1 : Nat) = (2 + 0 + u33.width * (0 + 1)) % (u33.width * u33.height)
          ∨ (1 : Nat) = (0 + 0 + u33.width * (0 + 2)) % (u33.width * u33.height)
          ∨ (1 : Nat) = (1 + 0 + u33.width * (0 + 2)) % (u33.width * u33.height)
          ∨ (1 : Nat) = (2 + 0 + u33.width * (0 + 2)) % (u33.width * u33.height)
      then Cell.Alive else u33.cells.getD 1 Cell.Dead :=
  (claim4_glider_stamp u33 0 0 (by decide) (by decide)).2.2.2 1 (by decide)

/-! ### `cells_from_pattern` and `pulsar` stamping -/

theorem cells_from_pattern_cells (u : Universe) (arr : List Nat)
    (mn mx rt ct L : Nat) :
    (u.cells_from_pattern arr mn mx rt ct L).cells =
      setAlive (((List.range' mn (mx - mn)).filter
          (fun i => decide ((i - mn) ∈ arr))).map
        (fun i => (i + rt + ct) % L)) u.cells := by
  simp only [Universe.cells_from_pattern]
  exact foldl_ite_set _ _ _ _

/-- For in-range pattern rows the match of the loop body selects exactly
`pulsarRowOffsets idx`. -/
theorem pulsarStep_eq (row col L : Nat) (v : Universe) (idx : Nat) (hidx : idx < 13) :
    pulsarStep row col L v idx = v.cells_from_pattern (pulsarRowOffsets idx)
      (idx * 13) (idx * 13 + 13) (row * v.width) (col + idx * (v.width - 13)) L := by
  interval_cases idx <;> rfl

/-- Folding the pulsar loop body over any list of in-range row indices is a
plain `setAlive` over the concatenated per-row key lists; it never touches
width or height. -/
theorem pulsar_fold_spec (row col L : Nat) (l : List Nat) (v : Universe)
    (hl : ∀ x ∈ l, x < 13) :
    ((l.foldl (pulsarStep row col L) v).cells =
      setAlive (l.flatMap (fun idx =>
        (((List.range' (idx * 13) (idx * 13 + 13 - idx * 13)).filter
            (fun i => decide ((i - idx * 13) ∈ pulsarRowOffsets idx))).map
          (fun i => (i + row * v.width + (col + idx * (v.width - 13))) % L)))) v.cells) ∧
    (l.foldl (pulsarStep row col L) v).width = v.width ∧
    (l.foldl (pulsarStep row col L) v).height = v.height := by
  induction l generalizing v with
  | nil => exact ⟨rfl, rfl, rfl⟩
  | cons idx l ih =>
    have hidx : idx < 13 := hl idx (List.mem_cons_self _ _)
    have ihv := ih (v.cells_from_pattern (pulsarRowOffsets idx) (idx * 13) (idx * 13 + 13)
      (row * v.width) (col + idx * (v.width - 13)) L)
      (fun x hx => hl x (List.mem_cons_of_mem _ hx))
    rw [List.foldl_cons, pulsarStep_eq row col L v idx hidx]
    refine ⟨?_, ihv.2.1, ihv.2.2⟩
    rw [ihv.1, cells_from_pattern_cells, List.flatMap_cons, setAlive_append]
    rfl

theorem pulsar_width (u : Universe) (row col : Nat) :
    (u.pulsar row col).width = u.width :=
  (pulsar_fold_spec row col (u.width * u.height) (List.range 13) u
    (fun x hx => List.mem_range.mp hx)).2.1

theorem pulsar_height (u : Universe) (row col : Nat) :
    (u.pulsar row col).height = u.height :=
  (pulsar_fold_spec row col (u.width * u.height) (List.range 13) u
    (fun x hx => List.mem_range.mp hx)).2.2

theorem length_pulsar (u : Universe) (row col : Nat) :
    (u.pulsar row col).cells.length = u.cells.length := by
  have h := (pulsar_fold_spec row col (u.width * u.height) (List.range 13) u
    (fun x hx => List.mem_range.mp hx)).1
  show ((List.range 13).foldl (pulsarStep row col (u.width * u.height)) u).cells.length
    = u.cells.length
  rw [h, length_setAlive]

theorem pulsar00_cells (u : Universe) :
    (u.pulsar 0 0).cells =
      setAlive ((List.range 13).flatMap (pulsar00Keys u)) u.cells := by
  have h := (pulsar_fold_spec 0 0 (u.width * u.height) (List.range 13) u
    (fun x hx => List.mem_range.mp hx)).1
  show ((List.range 13).foldl (pulsarStep 0 0 (u.width * u.height)) u).cells = _
  rw [h]
  rfl

theorem pulsarRowOffsets_cases (idx : Nat) :
    pulsarRowOffsets idx = [2, 3, 4, 8, 9, 10] ∨ pulsarRowOffsets idx = [] ∨
      pulsarRowOffsets idx = [0, 5, 7, 12] := by
  rcases idx with _|_|_|_|_|_|_|_|_|_|_|_|_|n
  · exact Or.inl rfl
  · exact Or.inr (Or.inl rfl)
  · exact Or.inr (Or.inr rfl)
  · exact Or.inr (Or.inr rfl)
  · exact Or.inr (Or.inr rfl)
  · exact Or.inl rfl
  · exact Or.inr (Or.inl rfl)
  · exact Or.inl rfl
  · exact Or.inr (Or.inr rfl)
  · exact Or.inr (Or.inr rfl)
  · exact Or.inr (Or.inr rfl)
  · exact Or.inr (Or.inl rfl)
  · exact Or.inl rfl
  · exact Or.inr (Or.inl rfl)

theorem pulsarRowOffsets_lt (idx o : Nat) (h : o ∈ pulsarRowOffsets idx) : o < 13 := by
  rcases pulsarRowOffsets_cases idx with hca | hca | hca <;> rw [hca] at h <;>
    simp at h <;> omega

theorem pulsar_key_mod (u : Universe) (idx o : Nat) (hw : 13 ≤ u.width)
    (hh : 13 ≤ u.height) (hidx : idx < 13) (ho : o < 13) :
    (idx * 13 + o + 0 * u.width + (0 + idx * (u.width - 13))) % (u.width * u.height)
      = idx * u.width + o := by
  have e : idx * (u.width - 13) + idx * 13 = idx * u.width := by
    rw [← Nat.mul_add]
    congr 1
    omega
  have e2 : idx * 13 + o + 0 * u.width + (0 + idx * (u.width - 13))
      = idx * u.width + o := by
    calc idx * 13 + o + 0 * u.width + (0 + idx * (u.width - 13))
        = idx * (u.width - 13) + idx * 13 + o := by ring
      _ = idx * u.width + o := by rw [e]
  rw [e2]
  apply Nat.mod_eq_of_lt
  have how : o < u.width := lt_of_lt_of_le ho hw
  calc idx * u.width + o < idx * u.width + u.width := by omega
    _ = (idx + 1) * u.width := by ring
    _ ≤ 13 * u.width := Nat.mul_le_mul_right _ (by omega)
    _ ≤ u.height * u.width := Nat.mul_le_mul_right _ hh
    _ = u.width * u.height := Nat.mul_comm _ _

theorem mem_pulsar00Keys (u : Universe) (idx r c : Nat) (hw : 13 ≤ u.width)
    (hh : 13 ≤ u.height) (hidx : idx < 13) (hc : c < u.width) :
    (r * u.width + c ∈ pulsar00Keys u idx) ↔ (r = idx ∧ c ∈ pulsarRowOffsets idx) := by
  constructor
  · intro hmem
    obtain ⟨i, hi, hkey⟩ := List.mem_map.mp hmem
    obtain ⟨hir, hif⟩ := List.mem_filter.mp hi
    obtain ⟨t, ht, hi_eq⟩ := List.mem_range'.mp hir
    subst hi_eq
    have htoff : t ∈ pulsarRowOffsets idx := by
      have h1 : idx * 13 + 1 * t - idx * 13 = t := by omega
      simp only [h1] at hif
      exact of_decide_eq_true hif
    have ht13 : t < 13 := ht
    have h2 : idx * 13 + 1 * t = idx * 13 + t := by omega
    rw [h2, pulsar_key_mod u idx t hw hh hidx ht13] at hkey
    have h3 := (flat_eq_iff (lt_of_lt_of_le ht13 hw) hc).mp hkey
    exact ⟨h3.1.symm, h3.2 ▸ htoff⟩
  · rintro ⟨rfl, hcm⟩
    have hc13 : c < 13 := pulsarRowOffsets_lt _ _ hcm
    refine List.mem_map.mpr ⟨r * 13 + c, ?_, ?_⟩
    · refine List.mem_filter.mpr ⟨?_, ?_⟩
      · exact List.mem_range'.mpr ⟨c, hc13, by omega⟩
      · have h1 : r * 13 + c - r * 13 = c := by omega
        simp only [h1]
        exact decide_eq_true hcm
    · exact pulsar_key_mod u r c hw hh hidx hc13

/-- The per-row offset arrays of the stamper agree with the literal
diagram of the spec. -/
theorem pulsarRowOffsets_eq_diagram (r : Nat) (hr : r < 13) :
    pulsarRowOffsets r = pulsarDiagram.getD r [] := by
  interval_cases r <;> rfl

/-- C5: on any well-formed all-Dead grid at least 13 wide and 13 high,
`pulsar 0 0` preserves the dimensions and buffer length and makes Alive
exactly the 48 cells of the literal 13×13 diagram (rows 0, 5, 7, 12 at
column offsets {2,3,4,8,9,10}; rows 2, 3, 4, 8, 9, 10 at column offsets
{0,5,7,12}; rows 1, 6, 11 empty), leaving every other cell Dead. -/
theorem claim5_pulsar_literal (u : Universe) (hw : 13 ≤ u.width) (hh : 13 ≤ u.height)
    (hlen : u.cells.length = u.width * u.height)
    (hdead : ∀ k, k < u.width * u.height → u.cells.getD k Cell.Dead = Cell.Dead) :
    (u.pulsar 0 0).width = u.width ∧ (u.pulsar 0 0).height = u.height ∧
    (u.pulsar 0 0).cells.length = u.width * u.height ∧
    (pulsarDiagram.map List.length).sum = 48 ∧
    ∀ r c, r < u.height → c < u.width →
      (u.pulsar 0 0).cells.getD (r * u.width + c) Cell.Dead =
        if r < 13 ∧ c ∈ pulsarDiagram.getD r [] then Cell.Alive else Cell.Dead := by
  refine ⟨pulsar_width u 0 0, pulsar_height u 0 0, by rw [length_pulsar, hlen],
    by decide, ?_⟩
  intro r c hr hc
  have hk : r * u.width + c < u.width * u.height := flat_lt hr hc
  rw [pulsar00_cells, getD_setAlive, hdead _ hk]
  have hmem : (r * u.width + c ∈ (List.range 13).flatMap (pulsar00Keys u))
      ↔ (r < 13 ∧ c ∈ pulsarDiagram.getD r []) := by
    rw [List.mem_flatMap]
    constructor
    · rintro ⟨idx, hidxmem, hin⟩
      have hidx13 : idx < 13 := List.mem_range.mp hidxmem
      obtain ⟨rfl, hoff⟩ := (mem_pulsar00Keys u idx r c hw hh hidx13 hc).mp hin
      refine ⟨hidx13, ?_⟩
      rw [← pulsarRowOffsets_eq_diagram r hidx13]
      exact hoff
    · rintro ⟨hr13, hcd⟩
      exact ⟨r, List.mem_range.mpr hr13,
        (mem_pulsar00Keys u r r c hw hh hr13 hc).mpr
          ⟨rfl, by rw [pulsarRowOffsets_eq_diagram r hr13]; exact hcd⟩⟩
  by_cases hcond : r < 13 ∧ c ∈ pulsarDiagram.getD r []
  · rw [if_pos hcond, if_pos ⟨hmem.mpr hcond, by rw [hlen]; exact hk⟩]
  · rw [if_neg hcond, if_neg (fun hcontra => hcond (hmem.mp hcontra.1))]

theorem getD_replicate (n k : Nat) (d : Cell) : (List.replicate n d).getD k d = d := by
  induction n generalizing k with
  | zero => rfl
  | succ n ih =>
    cases k with
    | zero => rfl
    | succ k => simpa using ih k

set_option maxRecDepth 4000 in
/-- Witness for C5 at the 13×13 all-Dead universe: cell (0,2) of the
stamped pulsar matches the literal diagram. -/
theorem claim5_pulsar_literal_witness :
    (u1313.pulsar 0 0).cells.getD (0 * u1313.width + 2) Cell.Dead =
      if (0 : Nat) < 13 ∧ (2 : Nat) ∈ pulsarDiagram.getD 0 [] then Cell.Alive
      else Cell.Dead :=
  (claim5_pulsar_literal u1313 (by decide) (by decide) (by decide)
    (fun k _ => getD_replicate 169 k Cell.Dead)).2.2.2.2 0 2 (by decide) (by decide)

/-! ### Neighbour counting (C3) -/

theorem val_le_one (c : Cell) : c.val ≤ 1 := by
  cases c <;> decide

theorem sum8_le (a b c d e f g h : Nat) (ha : a ≤ 1) (hb : b ≤ 1) (hc : c ≤ 1)
    (hd : d ≤ 1) (he : e ≤ 1) (hf : f ≤ 1) (hg : g ≤ 1) (hh : h ≤ 1) :
    a + b + c + d + e + f + g + h ≤ 8 := by
  omega

theorem sum8_ge (a b c d e f g h : Nat) (ha : 1 ≤ a) :
    1 ≤ a + b + c + d + e + f + g + h := by
  omega

theorem wrap_pred (N r : Nat) (hN : 1 ≤ N) (hr : r < N) :
    (if r = 0 then N - 1 else r - 1) = (r + N - 1) % N := by
  by_cases h : r = 0
  · subst h
    rw [if_pos rfl]
    have h1 : 0 + N - 1 = N - 1 := by omega
    rw [h1, Nat.mod_eq_of_lt (by omega)]
  · rw [if_neg h]
    have h1 : r + N - 1 = (r - 1) + N := by omega
    rw [h1, Nat.add_mod_right]
    exact (Nat.mod_eq_of_lt (by omega)).symm

theorem wrap_succ (N r : Nat) (hr : r < N) :
    (if r = N - 1 then 0 else r + 1) = (r + 1) % N := by
  by_cases h : r = N - 1
  · rw [if_pos h]
    have h1 : r + 1 = N := by omega
    rw [h1, Nat.mod_self]
  · rw [if_neg h]
    exact (Nat.mod_eq_of_lt (by omega)).symm

/-- C3: on an N×N universe with N ≥ 2, `live_neighbor_count` returns a
value in [0,8], equals the sum of the eight neighbour cell values at the
per-axis toroidally wrapped coordinates (`(row+N-1) % N`, `(row+1) % N`,
and likewise for columns), and in particular counts the cell at
(N-1, N-1) as the north-west diagonal neighbour of the cell at (0,0). -/
theorem claim3_neighbor_count (u : Universe) (N : Nat) (hN : 2 ≤ N)
    (hw : u.width = N) (hh : u.height = N) (hlen : u.cells.length = N * N) :
    (∀ row col, row < N → col < N → u.live_neighbor_count row col ≤ 8) ∧
    (∀ row col, row < N → col < N →
      u.live_neighbor_count row col =
        (u.cells.getD (u.get_index ((row + N - 1) % N) ((col + N - 1) % N)) Cell.Dead).val
        + (u.cells.getD (u.get_index ((row + N - 1) % N) col) Cell.Dead).val
        + (u.cells.getD (u.get_index ((row + N - 1) % N) ((col + 1) % N)) Cell.Dead).val
        + (u.cells.getD (u.get_index row ((col + N - 1) % N)) Cell.Dead).val
        + (u.cells.getD (u.get_index row ((col + 1) % N)) Cell.Dead).val
        + (u.cells.getD (u.get_index ((row + 1) % N) ((col + N - 1) % N)) Cell.Dead).val
        + (u.cells.getD (u.get_index ((row + 1) % N) col) Cell.Dead).val
        + (u.cells.getD (u.get_index ((row + 1) % N) ((col + 1) % N)) Cell.Dead).val) ∧
    (u.cells.getD (u.get_index (N - 1) (N - 1)) Cell.Dead = Cell.Alive →
      1 ≤ u.live_neighbor_count 0 0) := by
  subst hw
  refine ⟨?_, ?_, ?_⟩
  · intro row col _ _
    simp only [Universe.live_neighbor_count]
    exact sum8_le _ _ _ _ _ _ _ _ (val_le_one _) (val_le_one _) (val_le_one _)
      (val_le_one _) (val_le_one _) (val_le_one _) (val_le_one _) (val_le_one _)
  · intro row col hr hc
    have hN1 : 1 ≤ u.width := by omega
    simp only [Universe.live_neighbor_count]
    rw [hh, wrap_pred u.width row hN1 hr, wrap_pred u.width col hN1 hc,
      wrap_succ u.width row hr, wrap_succ u.width col hc]
  · intro hAlive
    show 1 ≤ u.live_neighbor_count 0 0
    simp only [Universe.live_neighbor_count]
    refine sum8_ge _ _ _ _ _ _ _ _ ?_
    simp only [if_true, hh]
    rw [hAlive]
    decide

/-- Witness for C3 at the 3×3 universe whose only live cell is (2,2): that
corner cell is seen from (0,0). -/
theorem claim3_neighbor_count_witness : 1 ≤ uCorner.live_neighbor_count 0 0 :=
  (claim3_neighbor_count uCorner 3 (by decide) (by decide) (by decide)
    (by decide)).2.2 (by decide)

/-! ### Dimension invariant (C2) -/

theorem create_cells_random (size w : Nat) (oracle : Nat → Bool) :
    create_cells "random" size w oracle = some (random size oracle) := rfl

theorem length_random (size : Nat) (oracle : Nat → Bool) :
    (random size oracle).length = size := by
  simp [random]

theorem set_cells_some_spec (u : Universe) (pairs : List (Nat × Nat)) (u1 : Universe)
    (h : u.set_cells pairs = some u1) :
    u1.width = u.width ∧ u1.height = u.height ∧ u1.cells.length = u.cells.length := by
  induction pairs generalizing u with
  | nil =>
    have h' : u = u1 := by
      simpa [Universe.set_cells] using h
    rw [← h']
    exact ⟨rfl, rfl, rfl⟩
  | cons p ps ih =>
    rw [Universe.set_cells, List.foldlM_cons] at h
    by_cases hidx : u.get_index p.1 p.2 < u.cells.length
    · rw [if_pos hidx] at h
      simp only [Option.bind_eq_bind, Option.some_bind] at h
      have h3 := ih { u with cells := (u.cells.set (u.get_index p.1 p.2) Cell.Alive) }
        (by rw [Universe.set_cells]; exact h)
      simpa [List.length_set] using h3
    · rw [if_neg hidx] at h
      simp at h

/-- C2 counterexample: `set_size` updates the receiver's width and height
but never touches its cells, so the receiver violates
`cells.length = width * height`: resizing the 2×2 all-Dead universe to
3×3 leaves its 4 cells in place while the dimensions claim 9. -/
theorem claim2_counterexample :
    ¬ ((u22.set_size 3 3 (fun _ => false)).1.cells.length =
        (u22.set_size 3 3 (fun _ => false)).1.width *
          (u22.set_size 3 3 (fun _ => false)).1.height) := by
  decide

/-- C2 amended: every mutating public operation except `set_size`
preserves or re-establishes `cells.length = width * height` on the
receiver (for the fallible `toggle_cell`/`set_cells`, whenever they
return); `set_size` establishes the invariant on the fresh universe it
returns, while the receiver keeps its old buffer under the new
dimensions, so the receiver satisfies the invariant exactly when the old
buffer length equals the new `width * height`. -/
theorem claim2_amended (u : Universe) (oracle : Nat → Bool)
    (row col w' h' a b : Nat) (pairs : List (Nat × Nat))
    (hlen : u.cells.length = u.width * u.height) :
    ((u.tick).cells.length = (u.tick).width * (u.tick).height) ∧
    ((u.set_width w').cells.length = (u.set_width w').width * (u.set_width w').height) ∧
    ((u.set_height h').cells.length =
      (u.set_height h').width * (u.set_height h').height) ∧
    (∀ u1, u.toggle_cell row col = some u1 →
      u1.cells.length = u1.width * u1.height) ∧
    ((u.reset oracle).cells.length = (u.reset oracle).width * (u.reset oracle).height) ∧
    ((u.clear).cells.length = (u.clear).width * (u.clear).height) ∧
    ((u.glider row col).cells.length =
      (u.glider row col).width * (u.glider row col).height) ∧
    ((u.pulsar row col).cells.length =
      (u.pulsar row col).width * (u.pulsar row col).height) ∧
    (∀ u1, u.set_cells pairs = some u1 → u1.cells.length = u1.width * u1.height) ∧
    ((u.set_size a b oracle).2.cells.length =
      (u.set_size a b oracle).2.width * (u.set_size a b oracle).2.height) ∧
    ((u.set_size a b oracle).1.cells.length =
        (u.set_size a b oracle).1.width * (u.set_size a b oracle).1.height ↔
      u.cells.length = a * b) := by
  refine ⟨?_, ?_, ?_, ?_, ?_, ?_, ?_, ?_, ?_, ?_, ?_⟩
  · rw [length_tick, hlen, tick_width, tick_height]
  · simp [Universe.set_width]
  · simp [Universe.set_height]
  · intro u1 h1
    by_cases hidx : u.get_index row col < u.cells.length
    · rw [toggle_cell_eq_some u row col hidx] at h1
      injection h1 with h2
      rw [← h2]
      simpa [List.length_set] using hlen
    · rw [toggle_cell_eq_none u row col hidx] at h1
      simp at h1
  · simp [Universe.reset, create_cells_random, length_random]
  · simp [Universe.clear]
  · rw [length_glider, glider_width, glider_height, hlen]
  · rw [length_pulsar, pulsar_width, pulsar_height, hlen]
  · intro u1 h1
    have h3 := set_cells_some_spec u pairs u1 h1
    rw [h3.2.2, h3.1, h3.2.1, hlen]
  · simp [Universe.set_size, create_cells_random, length_random]
  · exact Iff.rfl

/-- Witness for the amended C2 at the 3×3 all-Dead universe. -/
theorem claim2_amended_witness :
    ((u33.tick).cells.length = (u33.tick).width * (u33.tick).height) ∧
    ((u33.set_width 2).cells.length =
      (u33.set_width 2).width * (u33.set_width 2).height) ∧
    ((u33.set_height 2).cells.length =
      (u33.set_height 2).width * (u33.set_height 2).height) ∧
    (∀ u1, u33.toggle_cell 1 2 = some u1 →
      u1.cells.length = u1.width * u1.height) ∧
    ((u33.reset (fun _ => false)).cells.length =
      (u33.reset (fun _ => false)).width * (u33.reset (fun _ => false)).height) ∧
    ((u33.clear).cells.length = (u33.clear).width * (u33.clear).height) ∧
    ((u33.glider 1 2).cells.length =
      (u33.glider 1 2).width * (u33.glider 1 2).height) ∧
    ((u33.pulsar 1 2).cells.length =
      (u33.pulsar 1 2).width * (u33.pulsar 1 2).height) ∧
    (∀ u1, u33.set_cells [(0, 0)] = some u1 →
      u1.cells.length = u1.width * u1.height) ∧
    ((u33.set_size 2 2 (fun _ => false)).2.cells.length =
      (u33.set_size 2 2 (fun _ => false)).2.width *
        (u33.set_size 2 2 (fun _ => false)).2.height) ∧
    ((u33.set_size 2 2 (fun _ => false)).1.cells.length =
        (u33.set_size 2 2 (fun _ => false)).1.width *
          (u33.set_size 2 2 (fun _ => false)).1.height ↔
      u33.cells.length = 2 * 2) :=
  claim2_amended u33 (fun _ => false) 1 2 2 2 2 2 [(0, 0)] (by decide)

/-! ### Blinker oscillation (C7) -/

theorem val_ite (P : Prop) [Decidable P] :
    (if P then Cell.Alive else Cell.Dead).val = if P then 1 else 0 := by
  split <;> rfl

theorem ite_cell_eq_alive (P : Prop) [Decidable P] :
    ((if P then Cell.Alive else Cell.Dead) = Cell.Alive) ↔ P := by
  split <;> simp_all

theorem ite_cell_eq_dead (P : Prop) [Decidable P] :
    ((if P then Cell.Alive else Cell.Dead) = Cell.Dead) ↔ ¬ P := by
  split <;> simp_all

set_option maxHeartbeats 4000000 in
/-- One tick of a horizontal blinker at row `i`, columns `j-1..j+1`, away
from the boundary, is the vertical blinker at rows `i-1..i+1`, column `j`. -/
theorem tick_blinker_h (u : Universe) (i j : Nat)
    (hlen : u.cells.length = u.width * u.height)
    (hi2 : 2 ≤ i) (hi3 : i + 3 ≤ u.height) (hj2 : 2 ≤ j) (hj3 : j + 3 ≤ u.width)
    (hcells : ∀ k, k < u.width * u.height → u.cells.getD k Cell.Dead =
      if k = i * u.width + (j - 1) ∨ k = i * u.width + j ∨ k = i * u.width + (j + 1)
      then Cell.Alive else Cell.Dead) :
    ∀ k, k < u.width * u.height → (u.tick).cells.getD k Cell.Dead =
      if k = (i - 1) * u.width + j ∨ k = i * u.width + j ∨ k = (i + 1) * u.width + j
      then Cell.Alive else Cell.Dead := by
  intro k hk
  have hw0 : 0 < u.width := by omega
  have hrd : k / u.width < u.height := by
    rw [Nat.div_lt_iff_lt_mul hw0]
    calc k < u.width * u.height := hk
      _ = u.height * u.width := Nat.mul_comm _ _
  have hcd : k % u.width < u.width := Nat.mod_lt _ hw0
  have hkeq : k = (k / u.width) * u.width + k % u.width := by
    rw [Nat.mul_comm]
    exact (Nat.div_add_mod k u.width).symm
  obtain ⟨r, c, hr, hc, rfl⟩ : ∃ r c, r < u.height ∧ c < u.width ∧
      k = r * u.width + c := ⟨k / u.width, k % u.width, hrd, hcd, hkeq⟩
  rw [tick_getD u hlen hr hc, hcells _ (flat_lt hr hc)]
  simp only [Universe.live_neighbor_count, Universe.get_index]
  have hnlt : (if r = 0 then u.height - 1 else r - 1) < u.height := by split <;> omega
  have hslt : (if r = u.height - 1 then 0 else r + 1) < u.height := by split <;> omega
  have hwlt : (if c = 0 then u.width - 1 else c - 1) < u.width := by split <;> omega
  have helt : (if c = u.width - 1 then 0 else c + 1) < u.width := by split <;> omega
  rw [hcells _ (flat_lt hnlt hwlt), hcells _ (flat_lt hnlt hc),
    hcells _ (flat_lt hnlt helt), hcells _ (flat_lt hr hwlt),
    hcells _ (flat_lt hr helt), hcells _ (flat_lt hslt hwlt),
    hcells _ (flat_lt hslt hc), hcells _ (flat_lt hslt helt)]
  simp only [val_ite]
  have hj1 : j - 1 < u.width := by omega
  have hjw : j < u.width := by omega
  have hj2w : j + 1 < u.width := by omega
  simp only [flat_eq_iff hwlt hj1, flat_eq_iff hwlt hjw, flat_eq_iff hwlt hj2w,
    flat_eq_iff hc hj1, flat_eq_iff hc hjw, flat_eq_iff hc hj2w,
    flat_eq_iff helt hj1, flat_eq_iff helt hjw, flat_eq_iff helt hj2w]
  have hA1 : ((if r = 0 then u.height - 1 else r - 1) = i) ↔ (r = i + 1) := by
    split <;> omega
  have hA2 : ((if r = u.height - 1 then 0 else r + 1) = i) ↔ (r + 1 = i) := by
    split <;> omega
  have hW1 : ((if c = 0 then u.width - 1 else c - 1) = j - 1) ↔ (c = j) := by
    split <;> omega
  have hW2 : ((if c = 0 then u.width - 1 else c - 1) = j) ↔ (c = j + 1) := by
    split <;> omega
  have hW3 : ((if c = 0 then u.width - 1 else c - 1) = j + 1) ↔ (c = j + 2) := by
    split <;> omega
  have hE1 : ((if c = u.width - 1 then 0 else c + 1) = j - 1) ↔ (c + 2 = j) := by
    split <;> omega
  have hE2 : ((if c = u.width - 1 then 0 else c + 1) = j) ↔ (c + 1 = j) := by
    split <;> omega
  have hE3 : ((if c = u.width - 1 then 0 else c + 1) = j + 1) ↔ (c = j) := by
    split <;> omega
  simp only [hA1, hA2, hW1, hW2, hW3, hE1, hE2, hE3]
  simp only [nextCell, ite_cell_eq_alive, ite_cell_eq_dead]
  obtain ⟨a, rfl⟩ : ∃ a, i = a + 2 := ⟨i - 2, by omega⟩
  obtain ⟨b, rfl⟩ : ∃ b, j = b + 2 := ⟨j - 2, by omega⟩
  simp only [show a + 2 - 1 = a + 1 from rfl, show b + 2 - 1 = b + 1 from rfl,
    show a + 2 + 1 = a + 3 from rfl, show b + 2 + 1 = b + 3 from rfl,
    show b + 2 + 2 = b + 4 from rfl]
  by_cases hr1 : r = a + 1
  · subst hr1
    by_cases hc1 : c = b
    · subst hc1
      simp +arith
    by_cases hc2 : c = b + 1
    · subst hc2
      simp +arith
    by_cases hc3 : c = b + 2
    · subst hc3
      simp +arith
    by_cases hc4 : c = b + 3
    · subst hc4
      simp +arith
    by_cases hc5 : c = b + 4
    · subst hc5
      simp +arith
    · simp +arith [hc1, hc2, hc3, hc4, hc5]
  by_cases hr2 : r = a + 2
  · subst hr2
    by_cases hc1 : c = b
    · subst hc1
      simp +arith
    by_cases hc2 : c = b + 1
    · subst hc2
      simp +arith
    by_cases hc3 : c = b + 2
    · subst hc3
      simp +arith
    by_cases hc4 : c = b + 3
    · subst hc4
      simp +arith
    by_cases hc5 : c = b + 4
    · subst hc5
      simp +arith
    · simp +arith [hc1, hc2, hc3, hc4, hc5]
  by_cases hr3 : r = a + 3
  · subst hr3
    by_cases hc1 : c = b
    · subst hc1
      simp +arith
    by_cases hc2 : c = b + 1
    · subst hc2
      simp +arith
    by_cases hc3 : c = b + 2
    · subst hc3
      simp +arith
    by_cases hc4 : c = b + 3
    · subst hc4
      simp +arith
    by_cases hc5 : c = b + 4
    · subst hc5
      simp +arith
    · simp +arith [hc1, hc2, hc3, hc4, hc5]
  · simp +arith [hr1, hr2, hr3]

set_option maxHeartbeats 4000000 in
/-- One tick of a vertical blinker at rows `i-1..i+1`, column `j`, away
from the boundary, is the horizontal blinker at row `i`,
columns `j-1..j+1`. -/
theorem tick_blinker_v (u : Universe) (i j : Nat)
    (hlen : u.cells.length = u.width * u.height)
    (hi2 : 2 ≤ i) (hi3 : i + 3 ≤ u.height) (hj2 : 2 ≤ j) (hj3 : j + 3 ≤ u.width)
    (hcells : ∀ k, k < u.width * u.height → u.cells.getD k Cell.Dead =
      if k = (i - 1) * u.width + j ∨ k = i * u.width + j ∨ k = (i + 1) * u.width + j
      then Cell.Alive else Cell.Dead) :
    ∀ k, k < u.width * u.height → (u.tick).cells.getD k Cell.Dead =
      if k = i * u.width + (j - 1) ∨ k = i * u.width + j ∨ k = i * u.width + (j + 1)
      then Cell.Alive else Cell.Dead := by
  intro k hk
  have hw0 : 0 < u.width := by omega
  have hrd : k / u.width < u.height := by
    rw [Nat.div_lt_iff_lt_mul hw0]
    calc k < u.width * u.height := hk
      _ = u.height * u.width := Nat.mul_comm _ _
  have hcd : k % u.width < u.width := Nat.mod_lt _ hw0
  have hkeq : k = (k / u.width) * u.width + k % u.width := by
    rw [Nat.mul_comm]
    exact (Nat.div_add_mod k u.width).symm
  obtain ⟨r, c, hr, hc, rfl⟩ : ∃ r c, r < u.height ∧ c < u.width ∧
      k = r * u.width + c := ⟨k / u.width, k % u.width, hrd, hcd, hkeq⟩
  rw [tick_getD u hlen hr hc, hcells _ (flat_lt hr hc)]
  simp only [Universe.live_neighbor_count, Universe.get_index]
  have hnlt : (if r = 0 then u.height - 1 else r - 1) < u.height := by split <;> omega
  have hslt : (if r = u.height - 1 then 0 else r + 1) < u.height := by split <;> omega
  have hwlt : (if c = 0 then u.width - 1 else c - 1) < u.width := by split <;> omega
  have helt : (if c = u.width - 1 then 0 else c + 1) < u.width := by split <;> omega
  rw [hcells _ (flat_lt hnlt hwlt), hcells _ (flat_lt hnlt hc),
    hcells _ (flat_lt hnlt helt), hcells _ (flat_lt hr hwlt),
    hcells _ (flat_lt hr helt), hcells _ (flat_lt hslt hwlt),
    hcells _ (flat_lt hslt hc), hcells _ (flat_lt hslt helt)]
  simp only [val_ite]
  have hjw : j < u.width := by omega
  simp only [flat_eq_iff hwlt hjw, flat_eq_iff hc hjw, flat_eq_iff helt hjw]
  have hB1 : ((if r = 0 then u.height - 1 else r - 1) = i - 1) ↔ (r = i) := by
    split <;> omega
  have hB2 : ((if r = 0 then u.height - 1 else r - 1) = i) ↔ (r = i + 1) := by
    split <;> omega
  have hB3 : ((if r = 0 then u.height - 1 else r - 1) = i + 1) ↔ (r = i + 2) := by
    split <;> omega
  have hC1 : ((if r = u.height - 1 then 0 else r + 1) = i - 1) ↔ (r + 2 = i) := by
    split <;> omega
  have hC2 : ((if r = u.height - 1 then 0 else r + 1) = i) ↔ (r + 1 = i) := by
    split <;> omega
  have hC3 : ((if r = u.height - 1 then 0 else r + 1) = i + 1) ↔ (r = i) := by
    split <;> omega
  have hD1 : ((if c = 0 then u.width - 1 else c - 1) = j) ↔ (c = j + 1) := by
    split <;> omega
  have hD2 : ((if c = u.width - 1 then 0 else c + 1) = j) ↔ (c + 1 = j) := by
    split <;> omega
  -- the flattened-index target columns j-1 and j+1 of the conclusion
  have hj1 : j - 1 < u.width := by omega
  have hj2w : j + 1 < u.width := by omega
  simp only [flat_eq_iff hc hj1, flat_eq_iff hc hj2w]
  simp only [hB1, hB2, hB3, hC1, hC2, hC3, hD1, hD2]
  simp only [nextCell, ite_cell_eq_alive, ite_cell_eq_dead]
  obtain ⟨a, rfl⟩ : ∃ a, i = a + 2 := ⟨i - 2, by omega⟩
  obtain ⟨b, rfl⟩ : ∃ b, j = b + 2 := ⟨j - 2, by omega⟩
  simp only [show a + 2 - 1 = a + 1 from rfl, show b + 2 - 1 = b + 1 from rfl,
    show a + 2 + 1 = a + 3 from rfl, show a + 2 + 2 = a + 4 from rfl,
    show b + 2 + 1 = b + 3 from rfl]
  by_cases hc1 : c = b + 1
  · subst hc1
    by_cases hr1 : r = a
    · subst hr1
      simp +arith
    by_cases hr2 : r = a + 1
    · subst hr2
      simp +arith
    by_cases hr3 : r = a + 2
    · subst hr3
      simp +arith
    by_cases hr4 : r = a + 3
    · subst hr4
      simp +arith
    by_cases hr5 : r = a + 4
    · subst hr5
      simp +arith
    · simp +arith [hr1, hr2, hr3, hr4, hr5]
  by_cases hc2 : c = b + 2
  · subst hc2
    by_cases hr1 : r = a
    · subst hr1
      simp +arith
    by_cases hr2 : r = a + 1
    · subst hr2
      simp +arith
    by_cases hr3 : r = a + 2
    · subst hr3
      simp +arith
    by_cases hr4 : r = a + 3
    · subst hr4
      simp +arith
    by_cases hr5 : r = a + 4
    · subst hr5
      simp +arith
    · simp +arith [hr1, hr2, hr3, hr4, hr5]
  by_cases hc3 : c = b + 3
  · subst hc3
    by_cases hr1 : r = a
    · subst hr1
      simp +arith
    by_cases hr2 : r = a + 1
    · subst hr2
      simp +arith
    by_cases hr3 : r = a + 2
    · subst hr3
      simp +arith
    by_cases hr4 : r = a + 3
    · subst hr4
      simp +arith
    by_cases hr5 : r = a + 4
    · subst hr5
      simp +arith
    · simp +arith [hr1, hr2, hr3, hr4, hr5]
  · simp +arith [hc1, hc2, hc3]

/-- C7: a well-formed universe whose only live cells are a horizontal
blinker at row `i`, columns `j-1..j+1`, placed away from the boundary
(margins of two rows and the grid at least 5×5 follow from the
hypotheses), turns into the vertical blinker at rows `i-1..i+1`, column
`j`, after one `tick`, and two consecutive `tick`s restore the universe
exactly. -/
theorem claim7_blinker_oscillation (u : Universe) (i j : Nat)
    (hlen : u.cells.length = u.width * u.height)
    (hi2 : 2 ≤ i) (hi3 : i + 3 ≤ u.height) (hj2 : 2 ≤ j) (hj3 : j + 3 ≤ u.width)
    (hcells : ∀ k, k < u.width * u.height → u.cells.getD k Cell.Dead =
      if k = i * u.width + (j - 1) ∨ k = i * u.width + j ∨ k = i * u.width + (j + 1)
      then Cell.Alive else Cell.Dead) :
    (∀ k, k < u.width * u.height → (u.tick).cells.getD k Cell.Dead =
      if k = (i - 1) * u.width + j ∨ k = i * u.width + j ∨ k = (i + 1) * u.width + j
      then Cell.Alive else Cell.Dead) ∧
    (u.tick).tick = u := by
  have hstep1 := tick_blinker_h u i j hlen hi2 hi3 hj2 hj3 hcells
  refine ⟨hstep1, ?_⟩
  have hlen1 : (u.tick).cells.length = (u.tick).width * (u.tick).height := by
    rw [length_tick, hlen, tick_width, tick_height]
  have hstep2 := tick_blinker_v (u.tick) i j hlen1 hi2 hi3 hj2 hj3 hstep1
  refine Universe.ext rfl rfl ?_
  refine List.ext_getElem (by rw [length_tick, length_tick]) ?_
  intro n h1 h2
  have hn : n < u.width * u.height := by
    rw [length_tick, length_tick, hlen] at h1
    exact h1
  rw [← List.getD_eq_getElem _ Cell.Dead h1, ← List.getD_eq_getElem _ Cell.Dead h2]
  rw [hstep2 n hn, hcells n hn]
  rfl

/-- Witness for C7 at the concrete 5×5 horizontal blinker: two ticks
restore it exactly. -/
theorem claim7_blinker_oscillation_witness : (uBlinker.tick).tick = uBlinker :=
  (claim7_blinker_oscillation uBlinker 2 2 (by decide) (by decide) (by decide)
    (by decide) (by decide) (by decide)).2

/-- Witness for C10 at the 3×3 all-Dead universe, cell (1,2). -/
theorem claim10_toggle_cell_involution_witness :
    ∃ u1, u33.toggle_cell 1 2 = some u1 ∧
      u1.width = u33.width ∧ u1.height = u33.height ∧
      u1.cells.length = u33.cells.length ∧
      u1.cells.getD (1 * u33.width + 2) Cell.Dead
        = (u33.cells.getD (1 * u33.width + 2) Cell.Dead).toggle ∧
      (∀ k, k ≠ 1 * u33.width + 2 →
        u1.cells.getD k Cell.Dead = u33.cells.getD k Cell.Dead) ∧
      u1.toggle_cell 1 2 = some u33 :=
  claim10_toggle_cell_involution u33 1 2 (by decide) (by decide) (by decide)

end Convida
